import Mathlib

/-!
Verification development for the URL-resolution core of `src/main.py`
(messages_parsing).

The embedding models the pure data flow of the two pool passes:
status checking (`check_url_status` / `build_url_status_dict`) and
unshortening (`unshorten_url` / `build_unshorten_mapping`), together with
the URL classifier (`normalize_url` / `is_shortened_url`).

Conventions of the embedding:
* Python strings are Lean `String`s; the character-level operations the
  source uses (`startswith`, slicing, `lower`, membership) are modelled on
  the `List Char` contents of the string (ASCII inputs; `str.lower` is
  modelled by `Char.toLower`, which lowers the basic latin letters).
* A network call is a parameter: `transport : String → Option α` maps the
  normalized URL sent on the wire to `some result`, or `none` when the
  request raises `requests.RequestException` (timeout, connection error,
  DNS failure, ...).
* A Python function call that may raise is `Except String α`; the error
  value stands for the exception.  `urllib.parse.urlparse` raises
  `ValueError ("Invalid IPv6 URL")` when the netloc contains `[` without
  `]` or vice versa, and `ThreadPoolExecutor(max_workers=0)` raises
  `ValueError ("max_workers must be greater than 0")`; both are modelled.
* The thread pool completes futures in a nondeterministic order; the
  harvesting loop `for future in as_completed(...)` is modelled as a fold
  over an arbitrary `order : List String`, a permutation of the submitted
  URLs.  A task submitted to the pool is `task : String → Except String β`:
  `Except.error` is an unexpected exception surfacing from
  `future.result()`.
* Python `dict` is an association list: assignment to a fresh key appends,
  assignment to an existing key updates it in place.
-/

/-- Python `s.startswith(p)` on the characters of the strings. -/
def strStartsWith (s p : String) : Bool :=
  p.data.isPrefixOf s.data

/-- Python slicing `s[n:]` on the characters of the string. -/
def strDrop (s : String) (n : Nat) : String :=
  ⟨s.data.drop n⟩

/-- Python `s.lower()` (ASCII model). -/
def strLower (s : String) : String :=
  ⟨s.data.map Char.toLower⟩

/-- Python `c in s` for a single character. -/
def strHasChar (s : String) (c : Char) : Bool :=
  decide (c ∈ s.data)

/-- Module constant `MAX_WORKERS = 10` of `src/main.py`. -/
def MAX_WORKERS : Nat := 10

/-- Module constant `REQUEST_TIMEOUT = 5` of `src/main.py`. -/
def REQUEST_TIMEOUT : Nat := 5

/-- Module constant `UNSHORTEN_MODE = "both"` of `src/main.py`. -/
def UNSHORTEN_MODE : String := "both"

/-- Module constant `SHORTENER_DOMAINS` of `src/main.py`: the elements of
the Python set literal (the literal repeats `"buff.ly"` and `"ow.ly"`;
membership is unaffected). -/
def SHORTENER_DOMAINS : List String :=
  ["bit.ly", "t.co", "goo.gl", "tinyurl.com", "ow.ly", "buff.ly",
   "bitly.com", "is.gd", "buff.ly", "tiny.cc", "ow.ly", "newspr.es",
   "ti.me"]

/-- Embedding of `normalize_url` (src/main.py:185): prepend `http://`
unless the URL already starts with `http://` or `https://`. -/
def normalize_url (url : String) : String :=
  if strStartsWith url "http://" || strStartsWith url "https://" then url
  else "http://" ++ url

/-- Characters at which `urllib.parse.urlsplit` stops the netloc:
`/`, `?` and `#`. -/
def netlocDelim (c : Char) : Bool :=
  c = '/' || c = '?' || c = '#'

/-- Strip the scheme prefix of a normalized URL (every input that
`is_shortened_url` hands to `urlparse` starts with `http://` or
`https://`, so the scheme split of `urlsplit` reduces to this). -/
def afterScheme (s : String) : String :=
  if strStartsWith s "http://" then strDrop s 7
  else if strStartsWith s "https://" then strDrop s 8
  else s

/-- The netloc substring `urlsplit` extracts: the characters after `//`
up to the first `/`, `?` or `#`. -/
def rawNetloc (s : String) : String :=
  (afterScheme s).data.takeWhile (fun c => !netlocDelim c) |> String.mk

/-- The bracket check of `urllib.parse.urlsplit`: a netloc with `[` but
no `]`, or `]` but no `[`, raises `ValueError("Invalid IPv6 URL")`. -/
def bracketMismatch (netloc : String) : Bool :=
  (strHasChar netloc '[' && !strHasChar netloc ']') ||
  (strHasChar netloc ']' && !strHasChar netloc '[')

/-- Embedding of `urlparse(...).netloc` as used on normalized URLs:
either the netloc substring, or the `ValueError` of the IPv6 bracket
check. -/
def urlparseNetloc (s : String) : Except String String :=
  let netloc := rawNetloc s
  if bracketMismatch netloc then Except.error "Invalid IPv6 URL"
  else Except.ok netloc

/-- Python `host[4:]` after `host.startswith("www.")` — the www-strip of
`is_shortened_url`. -/
def stripWww (host : String) : String :=
  if strStartsWith host "www." then strDrop host 4 else host

/-- Embedding of `is_shortened_url` (src/main.py:275): normalize, parse
the netloc, lower-case it, strip one leading `www.`, and test membership
in `SHORTENER_DOMAINS`.  The `Except` layer records that `urlparse` can
raise (and the source does not catch it). -/
def is_shortened_url (url : String) : Except String Bool := do
  let netloc ← urlparseNetloc (normalize_url url)
  let host := strLower netloc
  let host := stripWww host
  pure (decide (host ∈ SHORTENER_DOMAINS))

/-- Embedding of `check_url_status` (src/main.py:199): the transport maps
the normalized URL to `some code`, or `none` when `requests.head` raises
`RequestException` (caught in the source, yielding `(url, None)`). -/
def check_url_status (transport : String → Option Nat) (url : String) :
    String × Option Nat :=
  match transport (normalize_url url) with
  | some code => (url, some code)
  | none => (url, none)

/-- Embedding of `unshorten_url` (src/main.py:290): the transport maps
the normalized URL to `some finalUrl`, or `none` when `requests.get`
raises `RequestException`, in which case the source falls back to the
normalized URL. -/
def unshorten_url (transport : String → Option String) (url : String) :
    String × String :=
  match transport (normalize_url url) with
  | some finalUrl => (url, finalUrl)
  | none => (url, normalize_url url)

/-- Python `dict` assignment `d[k] = v`: update in place when the key
exists, append otherwise. -/
def dictInsert {β : Type} (d : List (String × β)) (k : String) (v : β) :
    List (String × β) :=
  if d.any (fun p => p.1 = k) then
    d.map (fun p => if p.1 = k then (k, v) else p)
  else d ++ [(k, v)]

/-- Python `d.get(k)`: the value stored at a key. -/
def dictGet {β : Type} (d : List (String × β)) (k : String) : Option β :=
  (d.find? (fun p => p.1 = k)).map (fun p => p.2)

/-- Python `list(d.keys())` in insertion order. -/
def dictKeys {β : Type} (d : List (String × β)) : List String :=
  d.map Prod.fst

/-- The worker count both pool passes compute:
`max_workers = min(MAX_WORKERS, len(urls))` (src/main.py:236 and :365,
with the configured maximum taken as a parameter, per the spec's
configuration surface). -/
def effectiveWorkers (maxWorkers n : Nat) : Nat :=
  min maxWorkers n

/-- One iteration of the harvesting loop of `build_url_status_dict`
(src/main.py:242): on a normal result the returned tuple is stored, on
an exception the submitted URL is stored with `None` (the try/except of
src/main.py:244). -/
def statusStep (task : String → Except String (String × Option Nat))
    (results : List (String × Option Nat)) (url : String) :
    List (String × Option Nat) :=
  match task url with
  | Except.ok (origUrl, statusCode) => dictInsert results origUrl statusCode
  | Except.error _ => dictInsert results url none

/-- The value the harvesting loop of `build_url_status_dict` ends up
storing for a URL: the probe's status on a normal result, `None` on an
exception. -/
def statusVal (task : String → Except String (String × Option Nat))
    (url : String) : Option Nat :=
  match task url with
  | Except.ok p => p.2
  | Except.error _ => none

/-- Embedding of `build_url_status_dict` (src/main.py:221).  `task url`
is the submitted future's result: `Except.error` models an unexpected
exception surfacing from `future.result()`, which the source catches and
converts into a `None` entry for the submitted URL.  `order` is the
completion order of the futures.  `Except.error` at the top level models
the `ValueError` of `ThreadPoolExecutor(max_workers=0)`. -/
def build_url_status_dict (maxWorkers : Nat)
    (task : String → Except String (String × Option Nat))
    (urls order : List String) :
    Except String (List (String × Option Nat)) :=
  if urls.isEmpty then Except.ok []
  else if effectiveWorkers maxWorkers urls.length = 0 then
    Except.error "ValueError: max_workers must be greater than 0"
  else
    Except.ok (order.foldl (statusStep task) [])

/-- The success predicate of the summary in `build_url_status_dict`
(src/main.py:252): `isinstance(s, int) and 200 <= s < 400`. -/
def isSuccessBand (s : Option Nat) : Bool :=
  match s with
  | some code => decide (200 ≤ code ∧ code < 400)
  | none => false

/-- The failure predicate of the summary in `build_url_status_dict`
(src/main.py:253): `s is None or not (200 <= (s or 0) < 400)`.
`s or 0` on an integer status is the status itself unless it is 0, which
is outside the band either way, so `Option.getD 0` is faithful. -/
def isFailureBand (s : Option Nat) : Bool :=
  decide (s = none) || !decide (200 ≤ s.getD 0 ∧ s.getD 0 < 400)

/-- The `successful` count of src/main.py:252. -/
def successfulCount (results : List (String × Option Nat)) : Nat :=
  results.countP (fun p => isSuccessBand p.2)

/-- The `failed` count of src/main.py:253. -/
def failedCount (results : List (String × Option Nat)) : Nat :=
  results.countP (fun p => isFailureBand p.2)

/-- The list comprehension
`[u for u in urls if is_shortened_url(u)]` (src/main.py:329); it raises
if `is_shortened_url` raises on an element (left to right). -/
def filterShortened : List String → Except String (List String)
  | [] => Except.ok []
  | u :: rest => do
    let b ← is_shortened_url u
    let tail ← filterShortened rest
    pure (if b then u :: tail else tail)

/-- The mode dispatch of `build_unshorten_mapping` (src/main.py:331):
`"6.1"` targets only the shortener URLs, `"6.2"` and `"both"` target all
URLs, any other mode falls back to all URLs (with a warning in the
source). -/
def selectTargetUrls (urls shortened : List String) (mode : String) :
    List String :=
  if mode = "6.1" then shortened
  else if mode = "6.2" || mode = "both" then urls
  else urls

/-- One iteration of the harvesting loop of `build_unshorten_mapping`
(src/main.py:373): `future.result()` is called with no try/except, so an
exception short-circuits the whole loop. -/
def unshortenStep (task : String → Except String (String × String))
    (results : List (String × String)) (url : String) :
    Except String (List (String × String)) := do
  let (origUrl, finalUrl) ← task url
  pure (dictInsert results origUrl finalUrl)

/-- Embedding of `build_unshorten_mapping` (src/main.py:313).  The
harvesting loop at src/main.py:373 calls `future.result()` with no
try/except, so an unexpected task exception propagates (monadic fold);
a transport failure is already handled inside `unshorten_url` and
reaches the loop as a normal result. -/
def build_unshorten_mapping (maxWorkers : Nat)
    (task : String → Except String (String × String))
    (urls : List String) (mode : String) (order : List String) :
    Except String (List (String × String)) :=
  if urls.isEmpty then Except.ok []
  else do
    let shortened ← filterShortened urls
    let targetUrls := selectTargetUrls urls shortened mode
    if targetUrls.isEmpty then pure []
    else if effectiveWorkers maxWorkers targetUrls.length = 0 then
      Except.error "ValueError: max_workers must be greater than 0"
    else
      order.foldlM (unshortenStep task) []

/-- One probe executed by the pool, for the concurrency model: the URL it
probed, the worker (thread) that ran it, and the half-open time interval
during which it was in flight. -/
structure ProbeRun where
  url : String
  worker : Nat
  start : Nat
  stop : Nat

/-- Two probe runs overlap in time (their half-open intervals
intersect). -/
def runsOverlap (a b : ProbeRun) : Prop :=
  a.start < b.stop ∧ b.start < a.stop

/-- Model of an execution of `ThreadPoolExecutor(max_workers=w)`: every
probe is run by one of the `w` worker threads, and a single worker never
runs two probes at overlapping times.  This is the contract the source
relies on at src/main.py:239 and :370. -/
def PoolExecution (w : Nat) (runs : List ProbeRun) : Prop :=
  (∀ r ∈ runs, r.worker < w) ∧
  runs.Pairwise (fun a b => a.worker = b.worker → ¬ runsOverlap a b)

/-- Whether a probe run is in flight at time `t`. -/
def runActiveAt (r : ProbeRun) (t : Nat) : Bool :=
  decide (r.start ≤ t ∧ t < r.stop)

/-- Number of probes in flight at time `t`. -/
def inFlightAt (runs : List ProbeRun) (t : Nat) : Nat :=
  (runs.filter (fun r => runActiveAt r t)).length

/-- Decidability of interval overlap, for concrete schedules. -/
instance (a b : ProbeRun) : Decidable (runsOverlap a b) := by
  unfold runsOverlap
  infer_instance

/-- Decidability of the pool-execution contract, for concrete
schedules. -/
instance (w : Nat) (runs : List ProbeRun) : Decidable (PoolExecution w runs) := by
  unfold PoolExecution
  infer_instance

theorem char_toNat_ofNat_valid (n : Nat) (h : Char.isValidCharNat n) :
    (Char.ofNat n).toNat = n := by
  rw [Char.ofNat, dif_pos h]
  rfl

theorem char_toLower_fixed_iff (b : Char)
    (hb : b.toNat < 65 ∨ (90 < b.toNat ∧ b.toNat < 97) ∨ 122 < b.toNat)
    (c : Char) : c.toLower = b ↔ c = b := by
  by_cases hr : c.toNat ≥ 65 ∧ c.toNat ≤ 90
  · have hl : c.toLower = Char.ofNat (c.toNat + 32) := by
      unfold Char.toLower
      exact if_pos hr
    have hv : (Char.ofNat (c.toNat + 32)).toNat = c.toNat + 32 := by
      apply char_toNat_ofNat_valid
      unfold Char.isValidCharNat
      omega
    constructor
    · intro h
      exfalso
      rw [hl] at h
      rw [h] at hv
      omega
    · intro h
      exfalso
      subst h
      omega
  · have hl : c.toLower = c := by
      unfold Char.toLower
      exact if_neg hr
    rw [hl]

theorem mem_map_toLower_bracket (b : Char)
    (hb : b.toNat < 65 ∨ (90 < b.toNat ∧ b.toNat < 97) ∨ 122 < b.toNat)
    (cs : List Char) : b ∈ cs.map Char.toLower ↔ b ∈ cs := by
  rw [List.mem_map]
  constructor
  · rintro ⟨a, ha, hab⟩
    rwa [(char_toLower_fixed_iff b hb a).mp hab] at ha
  · intro hbc
    exact ⟨b, hbc, (char_toLower_fixed_iff b hb b).mpr rfl⟩

theorem dictInsert_fresh {β : Type} (d : List (String × β)) (k : String)
    (v : β) (h : k ∉ dictKeys d) : dictInsert d k v = d ++ [(k, v)] := by
  unfold dictInsert
  rw [if_neg]
  simp only [List.any_eq_true, decide_eq_true_eq, not_exists, not_and]
  intro p hp hpk
  exact h (hpk ▸ List.mem_map_of_mem Prod.fst hp)

theorem foldl_dictInsert {β : Type} (f : String → β) :
    ∀ (order : List String) (init : List (String × β)), order.Nodup →
    (∀ u ∈ order, u ∉ dictKeys init) →
    order.foldl (fun r u => dictInsert r u (f u)) init =
      init ++ order.map (fun u => (u, f u)) := by
  intro order
  induction order with
  | nil => intro init _ _; simp
  | cons u rest ih =>
    intro init hnd hfresh
    have hu : u ∉ dictKeys init := hfresh u (List.mem_cons_self u rest)
    have hstep : dictInsert init u (f u) = init ++ [(u, f u)] :=
      dictInsert_fresh init u (f u) hu
    simp only [List.foldl_cons, hstep]
    rw [ih (init ++ [(u, f u)]) (List.Nodup.of_cons hnd)]
    · simp
    · intro v hv
      have hvinit : v ∉ dictKeys init := hfresh v (List.mem_cons_of_mem u hv)
      have hvu : v ≠ u := by
        intro h
        subst h
        exact (List.nodup_cons.mp hnd).1 hv
      simp only [dictKeys] at hvinit
      simp only [dictKeys, List.map_append, List.mem_append, List.map_cons,
        List.map_nil, List.mem_singleton]
      rintro (h | h)
      · exact hvinit h
      · exact hvu h

theorem dictGet_map_self {β : Type} (f : String → β) :
    ∀ (order : List String) (k : String), k ∈ order →
    dictGet (order.map (fun u => (u, f u))) k = some (f k) := by
  intro order
  induction order with
  | nil => simp
  | cons u rest ih =>
    intro k hk
    by_cases huk : u = k
    · subst huk
      simp [dictGet, List.find?]
    · have hk' : k ∈ rest := by
        rcases List.mem_cons.mp hk with h | h
        · exact absurd h.symm huk
        · exact h
      simpa [dictGet, List.find?, huk] using ih k hk'

theorem dictKeys_map_self {β : Type} (f : String → β) (order : List String) :
    dictKeys (order.map (fun u => (u, f u))) = order := by
  unfold dictKeys
  rw [List.map_map]
  have hcomp : (Prod.fst ∘ fun u => (u, f u)) = id := rfl
  rw [hcomp, List.map_id]

theorem statusStep_eq_dictInsert
    (task : String → Except String (String × Option Nat))
    (hfst : ∀ u p, task u = Except.ok p → p.1 = u) :
    statusStep task = fun r u => dictInsert r u (statusVal task u) := by
  funext r u
  unfold statusStep statusVal
  cases h : task u with
  | ok p =>
    obtain ⟨o, s⟩ := p
    have : o = u := hfst u (o, s) h
    subst this
    rfl
  | error e => rfl

theorem build_url_status_dict_ok (maxWorkers : Nat)
    (task : String → Except String (String × Option Nat))
    (urls order : List String)
    (hfst : ∀ u p, task u = Except.ok p → p.1 = u)
    (hne : urls ≠ [])
    (hmw : effectiveWorkers maxWorkers urls.length ≠ 0)
    (hnd : order.Nodup) :
    build_url_status_dict maxWorkers task urls order =
      Except.ok (order.map (fun u => (u, statusVal task u))) := by
  unfold build_url_status_dict
  rw [if_neg (by simpa [List.isEmpty_iff] using hne), if_neg hmw]
  rw [statusStep_eq_dictInsert task hfst]
  rw [foldl_dictInsert (statusVal task) order [] hnd (by simp [dictKeys])]
  rfl

theorem foldlM_unshorten_ok
    (task : String → Except String (String × String)) (g : String → String) :
    ∀ (order : List String) (init : List (String × String)),
    (∀ u ∈ order, task u = Except.ok (u, g u)) →
    order.foldlM (unshortenStep task) init =
      Except.ok (order.foldl (fun r u => dictInsert r u (g u)) init) := by
  intro order
  induction order with
  | nil => intro init _; rfl
  | cons u rest ih =>
    intro init h
    have hu : task u = Except.ok (u, g u) := h u (List.mem_cons_self u rest)
    have hstep : unshortenStep task init u =
        Except.ok (dictInsert init u (g u)) := by
      unfold unshortenStep
      rw [hu]
      rfl
    rw [List.foldlM_cons, hstep]
    show rest.foldlM (unshortenStep task) (dictInsert init u (g u)) = _
    rw [ih (dictInsert init u (g u)) (fun v hv => h v (List.mem_cons_of_mem u hv))]
    rfl

theorem exceptIsOk_foldlM_error
    (task : String → Except String (String × String)) :
    ∀ (order : List String) (init : List (String × String)),
    (∃ u ∈ order, ∃ e, task u = Except.error e) →
    ∀ m, order.foldlM (unshortenStep task) init ≠ Except.ok m := by
  intro order
  induction order with
  | nil => rintro init ⟨u, hu, _⟩ m; exact absurd hu (List.not_mem_nil u)
  | cons u rest ih =>
    rintro init ⟨v, hv, e, hve⟩ m
    cases hu : task u with
    | error e' =>
      have hstep : unshortenStep task init u = Except.error e' := by
        unfold unshortenStep
        rw [hu]
        rfl
      rw [List.foldlM_cons, hstep]
      intro h
      exact Except.noConfusion h
    | ok p =>
      have hstep : unshortenStep task init u =
          Except.ok (dictInsert init p.1 p.2) := by
        unfold unshortenStep
        rw [hu]
        rfl
      rw [List.foldlM_cons, hstep]
      have hvrest : v ∈ rest := by
        rcases List.mem_cons.mp hv with h | h
        · subst h
          rw [hu] at hve
          exact absurd hve (by simp)
        · exact h
      show rest.foldlM (unshortenStep task) _ ≠ _
      exact ih _ ⟨v, hvrest, e, hve⟩ m

theorem countP_partition {α : Type} (p : α → Bool) (l : List α) :
    l.countP p + l.countP (fun a => !p a) = l.length := by
  induction l with
  | nil => rfl
  | cons x rest ih =>
    by_cases hx : p x
    · simp [List.countP_cons, hx]
      omega
    · simp [List.countP_cons, hx, Bool.not_eq_true]
      omega

theorem nodup_lt_length_le (l : List Nat) (w : Nat) (hnd : l.Nodup)
    (hlt : ∀ x ∈ l, x < w) : l.length ≤ w := by
  have hsub : l.toFinset ⊆ Finset.range w := by
    intro x hx
    rw [Finset.mem_range]
    exact hlt x (List.mem_toFinset.mp hx)
  have hcard := Finset.card_le_card hsub
  rw [Finset.card_range] at hcard
  rw [List.card_toFinset, List.Nodup.dedup hnd] at hcard
  exact hcard

theorem inFlightAt_le_of_poolExecution (w : Nat) (runs : List ProbeRun)
    (t : Nat) (h : PoolExecution w runs) : inFlightAt runs t ≤ w := by
  obtain ⟨hworker, hpair⟩ := h
  unfold inFlightAt
  set act := runs.filter (fun r => runActiveAt r t) with hact
  have hpact : act.Pairwise (fun a b => a.worker ≠ b.worker) := by
    have h1 : act.Pairwise (fun a b => a.worker = b.worker → ¬ runsOverlap a b) :=
      List.Pairwise.filter _ hpair
    apply h1.imp_of_mem
    intro a b ha hb hab
    intro hw
    have haT : runActiveAt a t = true := (List.mem_filter.mp ha).2
    have hbT : runActiveAt b t = true := (List.mem_filter.mp hb).2
    have ha' := of_decide_eq_true haT
    have hb' := of_decide_eq_true hbT
    exact hab hw ⟨Nat.lt_of_le_of_lt ha'.1 hb'.2, Nat.lt_of_le_of_lt hb'.1 ha'.2⟩
  have hnd : (act.map ProbeRun.worker).Nodup := by
    unfold List.Nodup
    rw [List.pairwise_map]
    exact hpact
  have hlt : ∀ x ∈ act.map ProbeRun.worker, x < w := by
    intro x hx
    obtain ⟨r, hr, rfl⟩ := List.mem_map.mp hx
    exact hworker r (List.mem_of_mem_filter hr)
  have := nodup_lt_length_le (act.map ProbeRun.worker) w hnd hlt
  rwa [List.length_map] at this

theorem is_shortened_url_of_netloc (url n : String)
    (h : urlparseNetloc (normalize_url url) = Except.ok n) :
    is_shortened_url url =
      Except.ok (decide (stripWww (strLower n) ∈ SHORTENER_DOMAINS)) := by
  unfold is_shortened_url
  rw [h]
  rfl

theorem is_shortened_url_of_netloc_err (url e : String)
    (h : urlparseNetloc (normalize_url url) = Except.error e) :
    is_shortened_url url = Except.error e := by
  unfold is_shortened_url
  rw [h]
  rfl

theorem domains_no_dot_suffix :
    ∀ d ∈ SHORTENER_DOMAINS, ∀ m ∈ SHORTENER_DOMAINS,
    ¬ ('.' :: d.data) <:+ m.data := by decide

theorem build_unshorten_mapping_ok (maxWorkers : Nat)
    (task : String → Except String (String × String))
    (urls : List String) (mode : String) (order : List String)
    (sh : List String) (g : String → String)
    (hfilter : filterShortened urls = Except.ok sh)
    (hne : urls ≠ [])
    (htne : selectTargetUrls urls sh mode ≠ [])
    (hmw : effectiveWorkers maxWorkers (selectTargetUrls urls sh mode).length ≠ 0)
    (htask : ∀ u ∈ order, task u = Except.ok (u, g u))
    (hnd : order.Nodup) :
    build_unshorten_mapping maxWorkers task urls mode order =
      Except.ok (order.map (fun u => (u, g u))) := by
  unfold build_unshorten_mapping
  rw [if_neg (by simpa [List.isEmpty_iff] using hne)]
  rw [show (filterShortened urls >>= fun shortened =>
      (if (selectTargetUrls urls shortened mode).isEmpty then pure []
       else if effectiveWorkers maxWorkers (selectTargetUrls urls shortened mode).length = 0 then
         Except.error "ValueError: max_workers must be greater than 0"
       else order.foldlM (unshortenStep task) [] :
         Except String (List (String × String)))) =
      (if (selectTargetUrls urls sh mode).isEmpty then pure []
       else if effectiveWorkers maxWorkers (selectTargetUrls urls sh mode).length = 0 then
         Except.error "ValueError: max_workers must be greater than 0"
       else order.foldlM (unshortenStep task) []) from by rw [hfilter]; rfl]
  rw [if_neg (by simpa [List.isEmpty_iff] using htne), if_neg hmw]
  rw [foldlM_unshorten_ok task g order [] htask]
  rw [foldl_dictInsert g order [] hnd (by simp [dictKeys])]
  rfl

theorem build_unshorten_mapping_err (maxWorkers : Nat)
    (task : String → Except String (String × String))
    (urls : List String) (mode : String) (order : List String)
    (sh : List String)
    (hfilter : filterShortened urls = Except.ok sh)
    (hne : urls ≠ [])
    (htne : selectTargetUrls urls sh mode ≠ [])
    (hmw : effectiveWorkers maxWorkers (selectTargetUrls urls sh mode).length ≠ 0)
    (hbad : ∃ u ∈ order, ∃ e, task u = Except.error e) :
    ∀ m, build_unshorten_mapping maxWorkers task urls mode order ≠
      Except.ok m := by
  intro m
  unfold build_unshorten_mapping
  rw [if_neg (by simpa [List.isEmpty_iff] using hne)]
  rw [show (filterShortened urls >>= fun shortened =>
      (if (selectTargetUrls urls shortened mode).isEmpty then pure []
       else if effectiveWorkers maxWorkers (selectTargetUrls urls shortened mode).length = 0 then
         Except.error "ValueError: max_workers must be greater than 0"
       else order.foldlM (unshortenStep task) [] :
         Except String (List (String × String)))) =
      (if (selectTargetUrls urls sh mode).isEmpty then pure []
       else if effectiveWorkers maxWorkers (selectTargetUrls urls sh mode).length = 0 then
         Except.error "ValueError: max_workers must be greater than 0"
       else order.foldlM (unshortenStep task) []) from by rw [hfilter]; rfl]
  rw [if_neg (by simpa [List.isEmpty_iff] using htne), if_neg hmw]
  exact exceptIsOk_foldlM_error task order [] hbad m

theorem isPrefixOf_append_self (p rest : List Char) :
    p.isPrefixOf (p ++ rest) = true := by
  induction p with
  | nil => rw [List.nil_append]; cases rest <;> rfl
  | cons a as ih =>
    show List.isPrefixOf (a :: as) (a :: (as ++ rest)) = true
    simp [List.isPrefixOf, ih]

theorem strStartsWith_www_http (u : String) :
    strStartsWith ("www." ++ u) "http://" = false := by
  unfold strStartsWith
  rw [String.data_append]
  rfl

theorem strStartsWith_www_https (u : String) :
    strStartsWith ("www." ++ u) "https://" = false := by
  unfold strStartsWith
  rw [String.data_append]
  rfl

theorem normalize_url_of_schemeless (u : String)
    (h1 : strStartsWith u "http://" = false)
    (h2 : strStartsWith u "https://" = false) :
    normalize_url u = "http://" ++ u := by
  unfold normalize_url
  rw [h1, h2]
  rfl

theorem afterScheme_http (x : String) : afterScheme ("http://" ++ x) = x := by
  unfold afterScheme
  have h : strStartsWith ("http://" ++ x) "http://" = true := by
    unfold strStartsWith
    rw [String.data_append]
    exact isPrefixOf_append_self _ _
  rw [h]
  show strDrop ("http://" ++ x) 7 = x
  unfold strDrop
  rw [String.data_append]
  rw [show (7 : Nat) = ("http://" : String).data.length from rfl, List.drop_left]

theorem bracketMismatch_strLower (n : String) :
    bracketMismatch (strLower n) = bracketMismatch n := by
  unfold bracketMismatch strHasChar strLower
  have h1 : ('[' ∈ (n.data.map Char.toLower)) ↔ ('[' ∈ n.data) :=
    mem_map_toLower_bracket '[' (by right; left; constructor <;> decide) n.data
  have h2 : (']' ∈ (n.data.map Char.toLower)) ↔ (']' ∈ n.data) :=
    mem_map_toLower_bracket ']' (by right; left; constructor <;> decide) n.data
  rw [show decide ('[' ∈ (String.mk (n.data.map Char.toLower)).data) =
      decide ('[' ∈ n.data) from decide_eq_decide.mpr h1]
  rw [show decide (']' ∈ (String.mk (n.data.map Char.toLower)).data) =
      decide (']' ∈ n.data) from decide_eq_decide.mpr h2]

theorem urlparseNetloc_of_mismatch (s : String)
    (h : bracketMismatch (rawNetloc s) = true) :
    urlparseNetloc s = Except.error "Invalid IPv6 URL" := by
  unfold urlparseNetloc
  rw [if_pos h]

theorem urlparseNetloc_of_ok (s : String)
    (h : bracketMismatch (rawNetloc s) = false) :
    urlparseNetloc s = Except.ok (rawNetloc s) := by
  unfold urlparseNetloc
  rw [if_neg (by rw [h]; exact Bool.false_ne_true)]

theorem is_shortened_url_eq_of_lower_netloc (u1 u2 : String)
    (h : strLower (rawNetloc (normalize_url u1)) =
         strLower (rawNetloc (normalize_url u2))) :
    is_shortened_url u1 = is_shortened_url u2 := by
  have hb : bracketMismatch (rawNetloc (normalize_url u1)) =
      bracketMismatch (rawNetloc (normalize_url u2)) := by
    rw [← bracketMismatch_strLower, h, bracketMismatch_strLower]
  by_cases hm : bracketMismatch (rawNetloc (normalize_url u1)) = true
  · have hm2 : bracketMismatch (rawNetloc (normalize_url u2)) = true := by
      rw [← hb]; exact hm
    rw [is_shortened_url_of_netloc_err u1 _ (urlparseNetloc_of_mismatch _ hm),
      is_shortened_url_of_netloc_err u2 _ (urlparseNetloc_of_mismatch _ hm2)]
  · have hm1 : bracketMismatch (rawNetloc (normalize_url u1)) = false :=
      Bool.not_eq_true _ ▸ eq_false_of_ne_true hm
    have hm2 : bracketMismatch (rawNetloc (normalize_url u2)) = false := by
      rw [← hb]; exact hm1
    rw [is_shortened_url_of_netloc u1 _ (urlparseNetloc_of_ok _ hm1),
      is_shortened_url_of_netloc u2 _ (urlparseNetloc_of_ok _ hm2), h]

theorem strHasChar_append_of_not_mem (p cs : List Char) (c : Char)
    (hc : c ∉ p) : strHasChar ⟨p ++ cs⟩ c = strHasChar ⟨cs⟩ c := by
  unfold strHasChar
  apply decide_eq_decide.mpr
  simp [List.mem_append, hc]

theorem bracketMismatch_www_append (cs : List Char) :
    bracketMismatch ⟨("www." : String).data ++ cs⟩ = bracketMismatch ⟨cs⟩ := by
  unfold bracketMismatch
  rw [strHasChar_append_of_not_mem _ _ '[' (by decide),
    strHasChar_append_of_not_mem _ _ ']' (by decide)]

theorem strLower_www_append (cs : List Char) :
    strLower ⟨("www." : String).data ++ cs⟩ =
      ⟨("www." : String).data ++ (cs.map Char.toLower)⟩ := by
  unfold strLower
  show String.mk ((("www." : String).data ++ cs).map Char.toLower) = _
  rw [List.map_append]
  rw [show List.map Char.toLower ("www." : String).data =
    ("www." : String).data from rfl]

theorem stripWww_www_append (cs : List Char) :
    stripWww ⟨("www." : String).data ++ cs⟩ = ⟨cs⟩ := by
  unfold stripWww
  have h : strStartsWith ⟨("www." : String).data ++ cs⟩ "www." = true := by
    unfold strStartsWith
    exact isPrefixOf_append_self _ _
  rw [if_pos h]
  unfold strDrop
  rw [show (4 : Nat) = ("www." : String).data.length from rfl, List.drop_left]

theorem stripWww_of_not_www (host : String)
    (h : strStartsWith host "www." = false) : stripWww host = host := by
  unfold stripWww
  rw [if_neg (by rw [h]; exact Bool.false_ne_true)]

theorem rawNetloc_normalize_of_schemeless (u : String)
    (h1 : strStartsWith u "http://" = false)
    (h2 : strStartsWith u "https://" = false) :
    rawNetloc (normalize_url u) =
      ⟨u.data.takeWhile (fun c => !netlocDelim c)⟩ := by
  rw [normalize_url_of_schemeless u h1 h2]
  unfold rawNetloc
  rw [afterScheme_http]

theorem is_shortened_url_www (u : String)
    (h1 : strStartsWith u "http://" = false)
    (h2 : strStartsWith u "https://" = false)
    (hw : strStartsWith (strLower (rawNetloc (normalize_url u))) "www."
      = false) :
    is_shortened_url ("www." ++ u) = is_shortened_url u := by
  have hraw1 := rawNetloc_normalize_of_schemeless u h1 h2
  have hraw2 : rawNetloc (normalize_url ("www." ++ u)) =
      ⟨("www." : String).data ++ u.data.takeWhile (fun c => !netlocDelim c)⟩ := by
    rw [normalize_url_of_schemeless ("www." ++ u) (strStartsWith_www_http u)
      (strStartsWith_www_https u)]
    unfold rawNetloc
    rw [afterScheme_http]
    show String.mk ((("www." : String).data ++ u.data).takeWhile
      (fun c => !netlocDelim c)) = _
    rw [List.takeWhile_append_of_pos (by decide)]
  set cs := u.data.takeWhile (fun c => !netlocDelim c) with hcs
  have hbm : bracketMismatch (rawNetloc (normalize_url ("www." ++ u))) =
      bracketMismatch (rawNetloc (normalize_url u)) := by
    rw [hraw1, hraw2, bracketMismatch_www_append]
  by_cases hm : bracketMismatch (rawNetloc (normalize_url u)) = true
  · rw [is_shortened_url_of_netloc_err ("www." ++ u) _
      (urlparseNetloc_of_mismatch _ (by rw [hbm]; exact hm)),
      is_shortened_url_of_netloc_err u _ (urlparseNetloc_of_mismatch _ hm)]
  · have hm1 : bracketMismatch (rawNetloc (normalize_url u)) = false :=
      eq_false_of_ne_true hm
    have hm2 : bracketMismatch (rawNetloc (normalize_url ("www." ++ u)))
        = false := by rw [hbm]; exact hm1
    rw [is_shortened_url_of_netloc ("www." ++ u) _
      (urlparseNetloc_of_ok _ hm2),
      is_shortened_url_of_netloc u _ (urlparseNetloc_of_ok _ hm1)]
    rw [hraw1, hraw2, strLower_www_append, stripWww_www_append]
    rw [hraw1] at hw
    rw [stripWww_of_not_www _ hw]
    rfl

theorem stripped_subdomain_not_mem (s d : String)
    (hd : d ∈ SHORTENER_DOMAINS) :
    (s ++ "." ++ d) ∉ SHORTENER_DOMAINS := by
  intro hm
  have hsuffix : ('.' :: d.data) <:+ (s ++ "." ++ d).data := by
    rw [String.data_append, String.data_append]
    rw [show ("." : String).data = ['.'] from rfl]
    rw [List.append_assoc]
    exact List.suffix_append s.data ('.' :: d.data)
  exact domains_no_dot_suffix d hd _ hm hsuffix

theorem build_unshorten_mapping_empty_target (maxWorkers : Nat)
    (task : String → Except String (String × String))
    (urls : List String) (mode : String) (order : List String)
    (sh : List String)
    (hfilter : filterShortened urls = Except.ok sh)
    (hne : urls ≠ [])
    (ht : selectTargetUrls urls sh mode = []) :
    build_unshorten_mapping maxWorkers task urls mode order =
      Except.ok [] := by
  unfold build_unshorten_mapping
  rw [if_neg (by simpa [List.isEmpty_iff] using hne)]
  rw [show (filterShortened urls >>= fun shortened =>
      (if (selectTargetUrls urls shortened mode).isEmpty then pure []
       else if effectiveWorkers maxWorkers (selectTargetUrls urls shortened mode).length = 0 then
         Except.error "ValueError: max_workers must be greater than 0"
       else order.foldlM (unshortenStep task) [] :
         Except String (List (String × String)))) =
      (if (selectTargetUrls urls sh mode).isEmpty then pure []
       else if effectiveWorkers maxWorkers (selectTargetUrls urls sh mode).length = 0 then
         Except.error "ValueError: max_workers must be greater than 0"
       else order.foldlM (unshortenStep task) []) from by rw [hfilter]; rfl]
  rw [if_pos (by simp [List.isEmpty_iff, ht])]
  rfl

theorem build_unshorten_mapping_zero_workers (maxWorkers : Nat)
    (task : String → Except String (String × String))
    (urls : List String) (mode : String) (order : List String)
    (sh : List String)
    (hfilter : filterShortened urls = Except.ok sh)
    (hne : urls ≠ [])
    (htne : selectTargetUrls urls sh mode ≠ [])
    (hmw : effectiveWorkers maxWorkers (selectTargetUrls urls sh mode).length = 0) :
    build_unshorten_mapping maxWorkers task urls mode order =
      Except.error "ValueError: max_workers must be greater than 0" := by
  unfold build_unshorten_mapping
  rw [if_neg (by simpa [List.isEmpty_iff] using hne)]
  rw [show (filterShortened urls >>= fun shortened =>
      (if (selectTargetUrls urls shortened mode).isEmpty then pure []
       else if effectiveWorkers maxWorkers (selectTargetUrls urls shortened mode).length = 0 then
         Except.error "ValueError: max_workers must be greater than 0"
       else order.foldlM (unshortenStep task) [] :
         Except String (List (String × String)))) =
      (if (selectTargetUrls urls sh mode).isEmpty then pure []
       else if effectiveWorkers maxWorkers (selectTargetUrls urls sh mode).length = 0 then
         Except.error "ValueError: max_workers must be greater than 0"
       else order.foldlM (unshortenStep task) []) from by rw [hfilter]; rfl]
  rw [if_neg (by simpa [List.isEmpty_iff] using htne), if_pos hmw]

theorem unshorten_task_ok (transport : String → Option String) (u : String) :
    (fun v => (Except.ok (unshorten_url transport v) :
        Except String (String × String))) u =
      Except.ok (u, (unshorten_url transport u).2) := by
  cases h : transport (normalize_url u) <;> simp [unshorten_url, h]

theorem filterShortened_nil : filterShortened [] = Except.ok [] := rfl

/-- C1 (amended): in the status-check pass an unexpected fault raised
while collecting a single probe's result is caught: the affected URL gets
a `None` (absence-of-result) entry and every other URL's result is still
collected.  In the unshorten pass, however, an unexpected fault raised
while collecting a result is not caught: the pool aborts and no mapping
is produced. -/
theorem status_pool_isolates_fault_unshorten_pool_aborts :
    (∀ (maxWorkers : Nat)
       (task : String → Except String (String × Option Nat))
       (urls order : List String) (u0 f : String),
       (∀ u p, task u = Except.ok p → p.1 = u) →
       order.Perm urls → urls.Nodup →
       effectiveWorkers maxWorkers urls.length ≠ 0 →
       u0 ∈ urls → task u0 = Except.error f →
       ∃ m, build_url_status_dict maxWorkers task urls order = Except.ok m ∧
         dictGet m u0 = some none ∧
         ∀ u ∈ urls, ∃ v, dictGet m u = some v) ∧
    (∀ (maxWorkers : Nat)
       (task : String → Except String (String × String))
       (urls : List String) (mode : String) (order sh : List String)
       (u0 f : String),
       filterShortened urls = Except.ok sh →
       urls ≠ [] →
       selectTargetUrls urls sh mode ≠ [] →
       effectiveWorkers maxWorkers (selectTargetUrls urls sh mode).length ≠ 0 →
       u0 ∈ order → task u0 = Except.error f →
       ∀ m, build_unshorten_mapping maxWorkers task urls mode order ≠
         Except.ok m) := by
  constructor
  · intro mw task urls order u0 f hfst hperm hnd hmw hu0 hfault
    have hne : urls ≠ [] := by
      rintro rfl
      exact absurd hu0 (List.not_mem_nil u0)
    have hndo : order.Nodup := hperm.nodup_iff.mpr hnd
    refine ⟨order.map (fun u => (u, statusVal task u)),
      build_url_status_dict_ok mw task urls order hfst hne hmw hndo, ?_, ?_⟩
    · rw [dictGet_map_self (statusVal task) order u0 (hperm.mem_iff.mpr hu0)]
      simp [statusVal, hfault]
    · intro u hu
      exact ⟨statusVal task u,
        dictGet_map_self (statusVal task) order u (hperm.mem_iff.mpr hu)⟩
  · intro mw task urls mode order sh u0 f hfilter hne htne hmw hu0 hfault
    exact build_unshorten_mapping_err mw task urls mode order sh hfilter hne
      htne hmw ⟨u0, hu0, f, hfault⟩

theorem status_pool_isolates_fault_witness :
    ∃ m, build_url_status_dict 10
        (fun u => if u = "b.com" then Except.error "boom"
          else Except.ok (u, some 200))
        ["a.com", "b.com"] ["b.com", "a.com"] = Except.ok m ∧
      dictGet m "b.com" = some none ∧
      ∀ u ∈ ["a.com", "b.com"], ∃ v, dictGet m u = some v := by
  apply status_pool_isolates_fault_unshorten_pool_aborts.1 10 _ _ _ "b.com" "boom"
  · intro u p h
    by_cases hu : u = "b.com"
    · rw [if_pos hu] at h
      exact absurd h (by simp)
    · rw [if_neg hu] at h
      have := Except.ok.inj h
      rw [← this]
  · decide
  · decide
  · decide
  · decide
  · rfl

/-- C1 counterexample: in mode `"6.2"`, an unexpected fault raised while
collecting the probe result of `"a.com"` aborts the unshorten pool: the
run raises instead of producing a mapping with a fallback entry for
`"a.com"` and an entry for the remaining URL `"b.com"`. -/
theorem unshorten_pool_abort_counterexample :
    build_unshorten_mapping 10
      (fun u => if u = "a.com" then Except.error "boom"
        else Except.ok (u, u))
      ["a.com", "b.com"] "6.2" ["a.com", "b.com"] =
      Except.error "boom" := rfl

/-- C2 (amended): an empty input list short-circuits both pool passes to
an empty mapping without error; but `maxWorkers = 0` together with a
non-empty input does not return an empty mapping: the
`ThreadPoolExecutor` constructor raises
`ValueError("max_workers must be greater than 0")`, which propagates. -/
theorem pool_empty_input_ok_zero_workers_raises :
    (∀ (maxWorkers : Nat)
       (task : String → Except String (String × Option Nat))
       (order : List String),
       build_url_status_dict maxWorkers task [] order = Except.ok []) ∧
    (∀ (maxWorkers : Nat)
       (task : String → Except String (String × String))
       (mode : String) (order : List String),
       build_unshorten_mapping maxWorkers task [] mode order =
         Except.ok []) ∧
    (∀ (task : String → Except String (String × Option Nat))
       (urls order : List String), urls ≠ [] →
       build_url_status_dict 0 task urls order =
         Except.error "ValueError: max_workers must be greater than 0") ∧
    (∀ (task : String → Except String (String × String))
       (urls : List String) (mode : String) (order sh : List String),
       urls ≠ [] →
       filterShortened urls = Except.ok sh →
       selectTargetUrls urls sh mode ≠ [] →
       build_unshorten_mapping 0 task urls mode order =
         Except.error "ValueError: max_workers must be greater than 0") := by
  refine ⟨fun _ _ _ => rfl, fun _ _ _ _ => rfl, ?_, ?_⟩
  · intro task urls order hne
    unfold build_url_status_dict
    rw [if_neg (by simpa [List.isEmpty_iff] using hne)]
    rw [if_pos (by simp [effectiveWorkers])]
  · intro task urls mode order sh hne hfilter htne
    exact build_unshorten_mapping_zero_workers 0 task urls mode order sh
      hfilter hne htne (by simp [effectiveWorkers])

theorem pool_zero_workers_witness :
    build_url_status_dict 0
      (fun u => Except.ok (u, none)) ["x.com"] ["x.com"] =
      Except.error "ValueError: max_workers must be greater than 0" :=
  pool_empty_input_ok_zero_workers_raises.2.2.1
    (fun u => Except.ok (u, none)) ["x.com"] ["x.com"] (by decide)

/-- C2 counterexample: with `maxWorkers = 0` and the non-empty input
`["a.com"]`, the status pool raises the `ValueError` of
`ThreadPoolExecutor(max_workers=0)` instead of returning an empty
mapping. -/
theorem pool_zero_workers_counterexample :
    build_url_status_dict 0
      (fun u => Except.ok (u, some 200)) ["a.com"] ["a.com"] =
      Except.error "ValueError: max_workers must be greater than 0" := rfl

/-- C3 (amended): `is_shortened_url` returns without raising on every
input whose parsed netloc has no unmatched square bracket, and an
unparsable (empty) host is classified as not a shortener; but on a
bracket-mismatched netloc `urlparse` raises `ValueError`, which the
source does not catch. -/
theorem is_shortened_url_total_unless_bracket (url : String)
    (h : bracketMismatch (rawNetloc (normalize_url url)) = false) :
    (∃ b, is_shortened_url url = Except.ok b) ∧
    (rawNetloc (normalize_url url) = "" →
      is_shortened_url url = Except.ok false) := by
  constructor
  · exact ⟨_, is_shortened_url_of_netloc url _ (urlparseNetloc_of_ok _ h)⟩
  · intro hempty
    rw [is_shortened_url_of_netloc url _ (urlparseNetloc_of_ok _ h), hempty]
    rfl

theorem is_shortened_url_total_witness :
    bracketMismatch (rawNetloc (normalize_url "")) = false ∧
    ((∃ b, is_shortened_url "" = Except.ok b) ∧
     (rawNetloc (normalize_url "") = "" →
       is_shortened_url "" = Except.ok false)) :=
  ⟨rfl, is_shortened_url_total_unless_bracket "" rfl⟩

/-- C3 counterexample: on the malformed input `"[::1"` the netloc
contains `[` without `]`, so `urlparse` raises
`ValueError("Invalid IPv6 URL")` inside `is_shortened_url`, which the
claim says must not happen. -/
theorem is_shortened_url_raises_counterexample :
    is_shortened_url "[::1" = Except.error "Invalid IPv6 URL" := rfl

/-- C4: each pool pass produces a mapping with exactly one entry per
relevant URL, keyed by the original URL string: the status map has one
entry per input URL, and the unshorten map one entry per URL of the
policy-selected target set — no duplicates, no omissions. -/
theorem pool_mappings_exactly_keyed :
    (∀ (maxWorkers : Nat)
       (task : String → Except String (String × Option Nat))
       (urls order : List String) (m : List (String × Option Nat)),
       (∀ u p, task u = Except.ok p → p.1 = u) →
       order.Perm urls → urls.Nodup →
       build_url_status_dict maxWorkers task urls order = Except.ok m →
       m.length = urls.length ∧ (dictKeys m).Perm urls ∧
         ∀ u ∈ urls, u ∈ dictKeys m) ∧
    (∀ (maxWorkers : Nat) (transport : String → Option String)
       (urls : List String) (mode : String) (order sh : List String)
       (m : List (String × String)),
       filterShortened urls = Except.ok sh →
       order.Perm (selectTargetUrls urls sh mode) →
       (selectTargetUrls urls sh mode).Nodup →
       build_unshorten_mapping maxWorkers
         (fun v => Except.ok (unshorten_url transport v)) urls mode order =
         Except.ok m →
       m.length = (selectTargetUrls urls sh mode).length ∧
         (dictKeys m).Perm (selectTargetUrls urls sh mode) ∧
         ∀ u ∈ selectTargetUrls urls sh mode, u ∈ dictKeys m) := by
  constructor
  · intro mw task urls order m hfst hperm hnd hbuild
    by_cases hne : urls = []
    · subst hne
      have hok : build_url_status_dict mw task [] order = Except.ok [] := rfl
      rw [hok] at hbuild
      have hm : m = [] := (Except.ok.inj hbuild).symm
      subst hm
      have horder : order = [] := hperm.eq_nil
      simp [dictKeys]
    · by_cases hmw : effectiveWorkers mw urls.length = 0
      · exfalso
        unfold build_url_status_dict at hbuild
        rw [if_neg (by simpa [List.isEmpty_iff] using hne),
          if_pos hmw] at hbuild
        exact Except.noConfusion hbuild
      · rw [build_url_status_dict_ok mw task urls order hfst hne hmw
          (hperm.nodup_iff.mpr hnd)] at hbuild
        have hm : m = order.map (fun u => (u, statusVal task u)) :=
          (Except.ok.inj hbuild).symm
        subst hm
        refine ⟨by rw [List.length_map, hperm.length_eq],
          by rw [dictKeys_map_self]; exact hperm, ?_⟩
        intro u hu
        rw [dictKeys_map_self]
        exact hperm.mem_iff.mpr hu
  · intro mw transport urls mode order sh m hfilter hperm hndt hbuild
    by_cases hne : urls = []
    · subst hne
      have hsh : sh = [] :=
        (Except.ok.inj (filterShortened_nil.symm.trans hfilter)).symm
      subst hsh
      have htnil : selectTargetUrls [] [] mode = [] := by
        unfold selectTargetUrls
        split
        · rfl
        · split <;> rfl
      have hok : build_unshorten_mapping mw
          (fun v => Except.ok (unshorten_url transport v)) [] mode order =
          Except.ok [] := rfl
      rw [hok] at hbuild
      have hm : m = [] := (Except.ok.inj hbuild).symm
      subst hm
      rw [htnil] at hperm ⊢
      simp [dictKeys]
    · by_cases htne : selectTargetUrls urls sh mode = []
      · rw [build_unshorten_mapping_empty_target mw _ urls mode order sh
          hfilter hne htne] at hbuild
        have hm : m = [] := (Except.ok.inj hbuild).symm
        subst hm
        rw [htne]
        simp [dictKeys]
      · by_cases hmw : effectiveWorkers mw
            (selectTargetUrls urls sh mode).length = 0
        · exfalso
          rw [build_unshorten_mapping_zero_workers mw _ urls mode order sh
            hfilter hne htne hmw] at hbuild
          exact Except.noConfusion hbuild
        · rw [build_unshorten_mapping_ok mw _ urls mode order sh
            (fun v => (unshorten_url transport v).2) hfilter hne htne hmw
            (fun v _ => unshorten_task_ok transport v)
            (hperm.nodup_iff.mpr hndt)] at hbuild
          have hm : m = order.map
              (fun u => (u, (unshorten_url transport u).2)) :=
            (Except.ok.inj hbuild).symm
          subst hm
          refine ⟨by rw [List.length_map, hperm.length_eq],
            by rw [dictKeys_map_self]; exact hperm, ?_⟩
          intro u hu
          rw [dictKeys_map_self]
          exact hperm.mem_iff.mpr hu

theorem pool_mappings_exactly_keyed_witness :
    [("b.com", some 200), ("a.com", some 200)].length =
        (["a.com", "b.com"] : List String).length ∧
      (dictKeys [("b.com", some (200 : Nat)), ("a.com", some 200)]).Perm
        ["a.com", "b.com"] ∧
      ∀ u ∈ (["a.com", "b.com"] : List String),
        u ∈ dictKeys [("b.com", some (200 : Nat)), ("a.com", some 200)] := by
  apply pool_mappings_exactly_keyed.1 10
    (fun u => Except.ok (u, some 200)) ["a.com", "b.com"] ["b.com", "a.com"]
  · intro u p h
    have := Except.ok.inj h
    rw [← this]
  · decide
  · decide
  · rfl

/-- C5: whenever the unshorten probe's transport fails for a URL, the
mapping still contains an entry for that URL and its value is the
normalized form of the original URL (the fallback of `unshorten_url`). -/
theorem unshorten_failed_probe_fallback :
    ∀ (maxWorkers : Nat) (transport : String → Option String)
      (urls : List String) (mode : String) (order sh : List String)
      (m : List (String × String)) (u : String),
      filterShortened urls = Except.ok sh →
      order.Perm (selectTargetUrls urls sh mode) →
      (selectTargetUrls urls sh mode).Nodup →
      build_unshorten_mapping maxWorkers
        (fun v => Except.ok (unshorten_url transport v)) urls mode order =
        Except.ok m →
      u ∈ selectTargetUrls urls sh mode →
      transport (normalize_url u) = none →
      dictGet m u = some (normalize_url u) := by
  intro mw transport urls mode order sh m u hfilter hperm hndt hbuild hu hfail
  have htne : selectTargetUrls urls sh mode ≠ [] := by
    intro h
    rw [h] at hu
    exact absurd hu (List.not_mem_nil u)
  have hne : urls ≠ [] := by
    rintro rfl
    have hsh : sh = [] :=
      (Except.ok.inj (filterShortened_nil.symm.trans hfilter)).symm
    subst hsh
    apply htne
    unfold selectTargetUrls
    split
    · rfl
    · split <;> rfl
  by_cases hmw : effectiveWorkers mw (selectTargetUrls urls sh mode).length = 0
  · exfalso
    rw [build_unshorten_mapping_zero_workers mw _ urls mode order sh
      hfilter hne htne hmw] at hbuild
    exact Except.noConfusion hbuild
  · rw [build_unshorten_mapping_ok mw _ urls mode order sh
      (fun v => (unshorten_url transport v).2) hfilter hne htne hmw
      (fun v _ => unshorten_task_ok transport v)
      (hperm.nodup_iff.mpr hndt)] at hbuild
    have hm : m = order.map (fun v => (v, (unshorten_url transport v).2)) :=
      (Except.ok.inj hbuild).symm
    subst hm
    rw [dictGet_map_self _ order u (hperm.mem_iff.mpr hu)]
    simp [unshorten_url, hfail]

theorem unshorten_failed_probe_fallback_witness :
    dictGet [("bit.ly/abc", "http://bit.ly/abc")] "bit.ly/abc" =
      some (normalize_url "bit.ly/abc") := by
  apply unshorten_failed_probe_fallback 10 (fun _ => none)
    ["bit.ly/abc", "example.com"] "6.1" ["bit.ly/abc"] ["bit.ly/abc"]
  · rfl
  · decide
  · decide
  · rfl
  · decide
  · rfl

/-- C6: mode `"both"` selects exactly the same target set as mode
`"6.2"` and produces exactly the same result mapping, for every worker
count, probe behavior, URL list and completion order; the two modes
differ only in logging. -/
theorem both_mode_behaves_as_62 :
    (∀ (urls sh : List String),
      selectTargetUrls urls sh "both" = selectTargetUrls urls sh "6.2") ∧
    (∀ (maxWorkers : Nat)
       (task : String → Except String (String × String))
       (urls order : List String),
       build_unshorten_mapping maxWorkers task urls "both" order =
         build_unshorten_mapping maxWorkers task urls "6.2" order) :=
  ⟨fun _ _ => rfl, fun _ _ _ _ => rfl⟩

/-- C7 (amended): `is_shortened_url` is case-insensitive on the host —
`is_shortened_url "WWW.BIT.LY/x"` and `is_shortened_url "bit.ly/x"` are
both `true`, and in general two URLs whose parsed netlocs agree after
lower-casing classify identically; prepending `"www."` leaves the result
unchanged for every scheme-less URL whose lowered netloc does not
already start with `"www."` (if it does, the single www-strip changes
the outcome). -/
theorem is_shortened_url_case_and_www :
    (is_shortened_url "WWW.BIT.LY/x" = Except.ok true ∧
     is_shortened_url "bit.ly/x" = Except.ok true) ∧
    (∀ u1 u2 : String,
      strLower (rawNetloc (normalize_url u1)) =
        strLower (rawNetloc (normalize_url u2)) →
      is_shortened_url u1 = is_shortened_url u2) ∧
    (∀ u : String,
      strStartsWith u "http://" = false →
      strStartsWith u "https://" = false →
      strStartsWith (strLower (rawNetloc (normalize_url u))) "www." = false →
      is_shortened_url ("www." ++ u) = is_shortened_url u) :=
  ⟨⟨rfl, rfl⟩, is_shortened_url_eq_of_lower_netloc, is_shortened_url_www⟩

theorem is_shortened_url_case_and_www_witness :
    is_shortened_url "bit.LY/x" = is_shortened_url "BIT.ly/x" ∧
    is_shortened_url ("www." ++ "t.co/abc") = is_shortened_url "t.co/abc" :=
  ⟨is_shortened_url_case_and_www.2.1 "bit.LY/x" "BIT.ly/x" rfl,
   is_shortened_url_case_and_www.2.2 "t.co/abc" rfl rfl rfl⟩

/-- C7 counterexample: prepending `"www."` to a URL whose host already
starts with `"www."` changes the classifier's result, because only a
single leading `"www."` is stripped: `"www.bit.ly/x"` is classified as a
shortener but `"www.www.bit.ly/x"` is not. -/
theorem www_prepend_changes_result_counterexample :
    is_shortened_url "www.bit.ly/x" = Except.ok true ∧
    is_shortened_url "www.www.bit.ly/x" = Except.ok false := ⟨rfl, rfl⟩

/-- C8: for a non-empty URL list the pool is constructed with
`effectiveWorkers = min(maxWorkers, |urls|)` worker threads, and in
every execution of such a pool at most `min(maxWorkers, |urls|)` probes
are in flight at any time. -/
theorem pool_concurrency_bound :
    ∀ (maxWorkers : Nat) (urls : List String) (runs : List ProbeRun)
      (t : Nat),
      urls ≠ [] →
      (runs.map ProbeRun.url).Perm urls →
      PoolExecution (effectiveWorkers maxWorkers urls.length) runs →
      inFlightAt runs t ≤ min maxWorkers urls.length := by
  intro mw urls runs t _ _ hpool
  exact inFlightAt_le_of_poolExecution (effectiveWorkers mw urls.length)
    runs t hpool

theorem pool_concurrency_bound_witness :
    inFlightAt [⟨"a.com", 0, 0, 5⟩, ⟨"b.com", 1, 0, 5⟩,
      ⟨"c.com", 0, 5, 9⟩] 3 ≤ min 2 3 := by
  apply pool_concurrency_bound 2 ["a.com", "b.com", "c.com"]
  · decide
  · decide
  · decide

/-- C9: shortener classification is exact host equality after
lower-casing and one www-strip: a URL whose canonical host is a proper
subdomain `s.d` of a configured shortener domain `d` is classified as
not a shortener — membership is not suffix matching. -/
theorem shortener_membership_is_exact :
    ∀ (url n s d : String),
      urlparseNetloc (normalize_url url) = Except.ok n →
      d ∈ SHORTENER_DOMAINS → s ≠ "" →
      stripWww (strLower n) = s ++ "." ++ d →
      is_shortened_url url = Except.ok false := by
  intro url n s d hok hd _ hhost
  rw [is_shortened_url_of_netloc url n hok, hhost,
    decide_eq_false (stripped_subdomain_not_mem s d hd)]

theorem shortener_membership_is_exact_witness :
    is_shortened_url "sub.bit.ly/x" = Except.ok false := by
  apply shortener_membership_is_exact "sub.bit.ly/x" "sub.bit.ly" "sub" "bit.ly"
  · rfl
  · decide
  · decide
  · rfl

/-- C10: the summary counts of the status pass partition the result
mapping: the entries counted successful (an integer status in
`[200, 400)`) and the entries counted failed (`None` or a status outside
the band) are disjoint and together exhaust the mapping. -/
theorem status_summary_counts_partition :
    ∀ (maxWorkers : Nat)
      (task : String → Except String (String × Option Nat))
      (urls order : List String) (m : List (String × Option Nat)),
      build_url_status_dict maxWorkers task urls order = Except.ok m →
      successfulCount m + failedCount m = m.length ∧
      ∀ p ∈ m, ¬(isSuccessBand p.2 = true ∧ isFailureBand p.2 = true) := by
  intro mw task urls order m _
  have hcompl : ∀ s, isFailureBand s = !isSuccessBand s := by
    intro s
    cases s with
    | none => rfl
    | some c => rfl
  constructor
  · have : failedCount m = m.countP (fun p => !isSuccessBand p.2) := by
      unfold failedCount
      congr 1
      funext p
      rw [hcompl]
    rw [this]
    exact countP_partition (fun p => isSuccessBand p.2) m
  · rintro p _ ⟨h1, h2⟩
    rw [hcompl, h1] at h2
    exact Bool.noConfusion h2

theorem status_summary_counts_partition_witness :
    successfulCount [("a.com", some 200), ("b.com", none)] +
        failedCount [("a.com", some 200), ("b.com", none)] =
      [("a.com", some (200 : Nat)), ("b.com", none)].length ∧
    ∀ p ∈ [("a.com", some (200 : Nat)), ("b.com", none)],
      ¬(isSuccessBand p.2 = true ∧ isFailureBand p.2 = true) :=
  status_summary_counts_partition 10
    (fun u => Except.ok (u, if u = "a.com" then some 200 else none))
    ["a.com", "b.com"] ["a.com", "b.com"]
    [("a.com", some 200), ("b.com", none)] rfl
